import Mathlib

/-!
# Verification of the x402 standalone client (`src/402_standalone-client/client.ts`)

This file gives a shallow embedding of the `X402Client` class and proves the
stated properties of its 402-retry flow, payment-authorization construction
and payload encoding.

Modelling conventions:

* JavaScript strings that flow into the JSON payload are modelled as their
  UTF-8 byte sequences, `JStr := List Nat` (every byte `< 256` for
  well-formed data).  Strings that never meet byte-level code (URLs, header
  names and values) are modelled as Lean `String`.
* `fetch` and `parseResponse` are abstracted: a `Resp` carries the status,
  headers, and the already-parsed body value of one HTTP response.  The
  parsed body is a `BodyVal`: either the duck-typed `X402PaymentDetails`
  shape the client reads on a 402 (with `accepts` possibly absent), or any
  other parsed JSON value represented by its serialization.
* Effectful collaborators (wall clock, `Math.random`, the two
  `readContract` calls, `signTypedData`, the presence of `Buffer`/`btoa`)
  become explicit inputs in an `Env` record; the two separate `Date.now()`
  calls in `createPayment` are two separate inputs.
* `request` additionally returns a `Tr` (trace) recording what the call did:
  the domain/message handed to the signer, the payload it built, and the
  retried request it sent, so that "no signing", "no second request" and
  header-frame properties are statable.
-/

namespace X402

/-- A JavaScript string viewed as its UTF-8 byte sequence. -/
abbrev JStr := List Nat

/-- Bytes of a Lean string literal (used only for ASCII literals, where
`Char.toNat` is the UTF-8 byte). -/
def litBytes (s : String) : JStr := s.data.map Char.toNat

/-- Fuel-driven digit rendering (base 10); structural in the fuel so the
kernel can evaluate it.  With fuel `≥ n` it computes the decimal digits of
`n`, most significant first. -/
def natToDecimalFuel : Nat → Nat → JStr
  | 0, n => [48 + n % 10]
  | fuel + 1, n => if n < 10 then [48 + n] else natToDecimalFuel fuel (n / 10) ++ [48 + n % 10]

theorem natToDecimalFuel_congr : ∀ (f1 f2 n : Nat), n ≤ f1 → n ≤ f2 →
    natToDecimalFuel f1 n = natToDecimalFuel f2 n := by
  intro f1
  induction f1 with
  | zero =>
    intro f2 n h1 h2
    have hn : n = 0 := by omega
    subst hn
    cases f2 with
    | zero => rfl
    | succ f2 => simp [natToDecimalFuel]
  | succ f1 ih =>
    intro f2 n h1 h2
    cases f2 with
    | zero =>
      have hn : n = 0 := by omega
      subst hn
      simp [natToDecimalFuel]
    | succ f2 =>
      simp only [natToDecimalFuel]
      by_cases h : n < 10
      · rw [if_pos h, if_pos h]
      · rw [if_neg h, if_neg h, ih f2 (n / 10) (by omega) (by omega)]

/-- Decimal digit bytes of a natural number, most significant first: models
`BigInt.prototype.toString()` / `Number.prototype.toString()` (base 10). -/
def natToDecimal (n : Nat) : JStr := natToDecimalFuel n n

/-- The recurrence `natToDecimal` satisfies. -/
theorem natToDecimal_eq (n : Nat) :
    natToDecimal n = if n < 10 then [48 + n] else natToDecimal (n / 10) ++ [48 + n % 10] := by
  unfold natToDecimal
  cases n with
  | zero => simp [natToDecimalFuel]
  | succ m =>
    show natToDecimalFuel (m + 1) (m + 1) = _
    simp only [natToDecimalFuel]
    by_cases h : m + 1 < 10
    · rw [if_pos h, if_pos h]
    · rw [if_neg h, if_neg h,
        natToDecimalFuel_congr m ((m + 1) / 10) ((m + 1) / 10) (by omega) (by omega)]

/-- Models the JavaScript `BigInt(string)` conversion on its decimal
fragment: a string of decimal digits parses to its value (the empty string
parses to `0`, as in JS); anything else is a conversion failure.  Sign,
whitespace and the `0x`/`0o`/`0b` radix prefixes of the full builtin are
outside the model; the protocol's amounts are decimal-digit strings. -/
def parseBigInt (s : JStr) : Option Nat :=
  if s.all (fun b => 48 ≤ b ∧ b ≤ 57) then
    some (s.foldl (fun a b => a * 10 + (b - 48)) 0)
  else none

/-- Lower-case hexadecimal digit byte of a value `< 16`:
`0-9` → `'0'..'9'`, `10-15` → `'a'..'f'`. -/
def hexDigitByte (n : Nat) : Nat := if n < 10 then 48 + n else 87 + n

/-- Fuel-driven digit rendering (base 16), structural in the fuel. -/
def natToHexFuel : Nat → Nat → JStr
  | 0, n => [hexDigitByte (n % 16)]
  | fuel + 1, n =>
    if n < 16 then [hexDigitByte n] else natToHexFuel fuel (n / 16) ++ [hexDigitByte (n % 16)]

theorem natToHexFuel_congr : ∀ (f1 f2 n : Nat), n ≤ f1 → n ≤ f2 →
    natToHexFuel f1 n = natToHexFuel f2 n := by
  intro f1
  induction f1 with
  | zero =>
    intro f2 n h1 h2
    have hn : n = 0 := by omega
    subst hn
    cases f2 with
    | zero => rfl
    | succ f2 => simp [natToHexFuel]
  | succ f1 ih =>
    intro f2 n h1 h2
    cases f2 with
    | zero =>
      have hn : n = 0 := by omega
      subst hn
      simp [natToHexFuel]
    | succ f2 =>
      simp only [natToHexFuel]
      by_cases h : n < 16
      · rw [if_pos h, if_pos h]
      · rw [if_neg h, if_neg h, ih f2 (n / 16) (by omega) (by omega)]

/-- Lower-case hexadecimal digit bytes of a natural number, most significant
first: models `Number.prototype.toString(16)` for non-negative ints. -/
def natToHex (n : Nat) : JStr := natToHexFuel n n

/-- The recurrence `natToHex` satisfies. -/
theorem natToHex_eq (n : Nat) :
    natToHex n = if n < 16 then [hexDigitByte n] else natToHex (n / 16) ++ [hexDigitByte (n % 16)] := by
  unfold natToHex
  cases n with
  | zero => simp [natToHexFuel, hexDigitByte]
  | succ m =>
    show natToHexFuel (m + 1) (m + 1) = _
    simp only [natToHexFuel]
    by_cases h : m + 1 < 16
    · rw [if_pos h, if_pos h]
    · rw [if_neg h, if_neg h,
        natToHexFuel_congr m ((m + 1) / 16) ((m + 1) / 16) (by omega) (by omega)]

/-- `s.padStart(w, '0')` on digit-byte strings. -/
def padStartZero (w : Nat) (s : JStr) : JStr :=
  List.replicate (w - s.length) 48 ++ s

/-- Hex rendering of a byte sequence, two lower-case digits per byte. -/
def hexOfBytes (bs : List Nat) : JStr :=
  bs.flatMap (fun b => [hexDigitByte (b / 16), hexDigitByte (b % 16)])

/-- Value of one hexadecimal digit byte (either case), if it is one. -/
def hexVal (b : Nat) : Option Nat :=
  if 48 ≤ b ∧ b ≤ 57 then some (b - 48)
  else if 97 ≤ b ∧ b ≤ 102 then some (b - 87)
  else if 65 ≤ b ∧ b ≤ 70 then some (b - 55)
  else none

/-- Parse a hex string (even length) back into its bytes. -/
def hexToBytes : JStr → Option (List Nat)
  | [] => some []
  | h1 :: h2 :: rest => do
      let v1 ← hexVal h1
      let v2 ← hexVal h2
      let tl ← hexToBytes rest
      pure ((v1 * 16 + v2) :: tl)
  | [_] => none

/-- Big-endian byte sequence of `t` on `k` bytes (`t < 256 ^ k`). -/
def beBytes : Nat → Nat → List Nat
  | 0, _ => []
  | k + 1, t => beBytes k (t / 256) ++ [t % 256]

/-- JavaScript `s || d` for strings: the empty string is falsy. -/
def jsOrBytes (s d : JStr) : JStr := if s = [] then d else s

/-- JavaScript `o || d` where `o` may also be absent (`undefined`). -/
def jsOrOpt (o : Option JStr) (d : JStr) : JStr :=
  match o with
  | some s => jsOrBytes s d
  | none => d

/-- `"USD Coin"`, the fallback EIP-712 domain name (`client.ts:196,216`). -/
def usdCoin : JStr := litBytes "USD Coin"

/-- `"2"`, the fallback EIP-712 domain version (`client.ts:201,217`). -/
def versionTwo : JStr := litBytes "2"

/-- `"exact"`, the default payment scheme (`client.ts:136`). -/
def exactScheme : JStr := litBytes "exact"

/-! ## Data model (`client.ts` interfaces) -/

/-- One entry of `X402PaymentDetails.accepts` (`client.ts:36-46`).  `scheme`
and `resource` are `Option` because the duck-typed 402 body may omit them
(the code guards both with `||`); `description`, `mimeType` and
`maxTimeoutSeconds` are never read by the client and are not modelled. -/
structure Accept where
  scheme : Option JStr
  network : JStr
  maxAmountRequired : JStr
  resource : Option String
  payTo : JStr
  asset : JStr
  deriving DecidableEq, Repr

/-- A parsed response body (the value `parseResponse` returns): either the
duck-typed `X402PaymentDetails` shape the 402 branch reads — `accepts` is
`none` when the field is missing or the body is not of that shape — or any
other parsed JSON value, represented by its canonical serialization. -/
inductive BodyVal where
  | details (accepts : Option (List Accept)) (x402Version : Option Nat)
  | raw (s : JStr)
  deriving DecidableEq, Repr

/-- `ExactEvmAuthorization` (`client.ts:50-57`): all fields are the decimal
or hex strings that go into the JSON payload. -/
structure ExactEvmAuthorization where
  «from» : JStr
  «to» : JStr
  value : JStr
  validAfter : JStr
  validBefore : JStr
  nonce : JStr
  deriving DecidableEq, Repr

/-- The inner `payload` object of `ExactEvmPaymentPayload` (`client.ts:63-66`). -/
structure ExactEvmInner where
  signature : JStr
  authorization : ExactEvmAuthorization
  deriving DecidableEq, Repr

/-- `ExactEvmPaymentPayload` (`client.ts:59-67`). -/
structure ExactEvmPaymentPayload where
  x402Version : Nat
  scheme : JStr
  network : JStr
  payload : ExactEvmInner
  deriving DecidableEq, Repr

/-- The EIP-712 domain handed to `signTypedData` (`client.ts:215-220`). -/
structure Eip712Domain where
  name : JStr
  version : JStr
  chainId : Nat
  verifyingContract : JStr
  deriving DecidableEq, Repr

/-- The typed `TransferWithAuthorization` message handed to `signTypedData`
(`client.ts:233-240`); `value`, `validAfter`, `validBefore` are `bigint`s. -/
structure TypedMessage where
  «from» : JStr
  «to» : JStr
  value : Nat
  validAfter : Nat
  validBefore : Nat
  nonce : JStr
  deriving DecidableEq, Repr

/-- Header map of a request or response: JS object keys to values. -/
abbrev HMap := String → Option String

/-- One HTTP response as the client observes it after `parseResponse`:
status, headers, and the parsed body value. -/
structure Resp where
  status : Nat
  headers : HMap
  body : BodyVal

/-- The caller's `RequestInit`: its `headers` object plus all other options,
kept opaque in `rest` (the code only ever spreads them unchanged). -/
structure ReqOptions (ρ : Type) where
  headers : HMap
  rest : ρ

/-- `X402RequestResult` (`client.ts:20-24`). -/
structure RequestResult where
  data : BodyVal
  status : Nat
  headers : HMap

/-- The errors `request` can throw, by the exact `new Error(...)` sites in
the source; each constructor carries the data interpolated into its
message (rendered by `errMessage`). -/
inductive Err where
  /-- `"No payment options available in 402 response"` (`client.ts:127`). -/
  | protocolError
  /-- `BigInt(paymentOption.maxAmountRequired)` threw (`client.ts:132`). -/
  | bigIntConversionError
  /-- `"Failed to create payment: ..."` (`client.ts:273`). -/
  | paymentError (cause : JStr)
  /-- `"Payment accepted but request failed: <status>. <body>"` (`client.ts:153`). -/
  | settlementError (status : Nat) (body : BodyVal)
  /-- `"No base64 encoder available in current environment"` (`client.ts:319`). -/
  | noBase64Encoder
  deriving DecidableEq, Repr

/-- The retried fetch call: url, headers and the spread-through rest of the
caller's options (`client.ts:143-149`). -/
structure SentReq (ρ : Type) where
  url : String
  headers : HMap
  rest : ρ

/-- Trace of one `request` call: the domain/message handed to
`signTypedData` (if signing was attempted), the payment payload built (if
`createPayment` returned), and the retried request (if one was sent). -/
structure Tr (ρ : Type) where
  signedWith : Option (Eip712Domain × TypedMessage)
  payload : Option ExactEvmPaymentPayload
  secondSent : Option (SentReq ρ)

/-- The effectful collaborators of one `request` call, made explicit:
client state (`accountAddress`, the chain id of `this.network`), the two
`readContract` reads (already resolved to a value or a rejection — the code
attaches `.catch` fallbacks), the signer, the two `Date.now()` readings
(`client.ts:204` and `client.ts:208`), the 24 bytes drawn from
`Math.random` (`client.ts:210-212`), and which base64 encoders the runtime
offers (`Buffer` / `btoa`). -/
structure Env where
  accountAddress : JStr
  chainId : Nat
  nameRead : Except Unit JStr
  verRead : Except Unit JStr
  sign : Eip712Domain → TypedMessage → Except JStr JStr
  nowMs : Nat
  nowMs2 : Nat
  random : List Nat
  hasBuffer : Bool
  hasBtoa : Bool

/-- The parameters `request` passes to `createPayment` (`client.ts:131-138`,
`165-172`); `amount` is the already-converted `BigInt`. -/
structure PayParams where
  amount : Nat
  recipient : JStr
  reference : String
  asset : JStr
  scheme : JStr
  network : JStr

/-! ## JSON serialization (`JSON.stringify` of `ExactEvmPaymentPayload`) -/

/-- `JSON.stringify`'s escaping of one string character (here: one byte of
the UTF-8 encoding; multi-byte characters are `≥ 0x80` per byte and pass
through unescaped, exactly as `JSON.stringify` leaves them unescaped and
`Buffer.from(json, "utf8")` re-encodes them). -/
def escByte (b : Nat) : JStr :=
  if b = 34 then [92, 34]
  else if b = 92 then [92, 92]
  else if b = 8 then [92, 98]
  else if b = 9 then [92, 116]
  else if b = 10 then [92, 110]
  else if b = 12 then [92, 102]
  else if b = 13 then [92, 114]
  else if b < 32 then [92, 117, 48, 48, hexDigitByte (b / 16), hexDigitByte (b % 16)]
  else [b]

/-- Escape a whole string body. -/
def escBytes (s : JStr) : JStr := s.flatMap escByte

/-- A JSON string literal: quote, escaped body, quote. -/
def jsonStr (s : JStr) : JStr := 34 :: (escBytes s ++ [34])

/-- `JSON.stringify(payload)` for an `ExactEvmPaymentPayload`
(`client.ts:302`): key order is object-literal insertion order
(`client.ts:262-270`, `249-256`). -/
def serializePayload (p : ExactEvmPaymentPayload) : JStr :=
  litBytes "\x7b\"x402Version\":" ++ natToDecimal p.x402Version ++
  litBytes ",\"scheme\":" ++ jsonStr p.scheme ++
  litBytes ",\"network\":" ++ jsonStr p.network ++
  litBytes ",\"payload\":\x7b\"signature\":" ++ jsonStr p.payload.signature ++
  litBytes ",\"authorization\":\x7b\"from\":" ++ jsonStr p.payload.authorization.«from» ++
  litBytes ",\"to\":" ++ jsonStr p.payload.authorization.«to» ++
  litBytes ",\"value\":" ++ jsonStr p.payload.authorization.value ++
  litBytes ",\"validAfter\":" ++ jsonStr p.payload.authorization.validAfter ++
  litBytes ",\"validBefore\":" ++ jsonStr p.payload.authorization.validBefore ++
  litBytes ",\"nonce\":" ++ jsonStr p.payload.authorization.nonce ++
  litBytes "\x7d\x7d\x7d"

/-! ## Base64 (`Buffer.toString("base64")` / the `btoa` fallback path) -/

/-- Character `n` of the standard base64 alphabet
`A-Z a-z 0-9 + /` (`n < 64`). -/
def b64CharOfSextet (n : Nat) : Char :=
  if n < 26 then Char.ofNat (65 + n)
  else if n < 52 then Char.ofNat (71 + n)
  else if n < 62 then Char.ofNat (n - 4)
  else if n = 62 then '+' else '/'

/-- Standard base64 encoding of a byte sequence with `=` padding: what both
`Buffer.from(json, "utf8").toString("base64")` and the
`TextEncoder`+`btoa` fallback produce (`client.ts:304-317`). -/
def b64encodeBytes : List Nat → List Char
  | [] => []
  | [b1] => [b64CharOfSextet (b1 / 4), b64CharOfSextet (b1 % 4 * 16), '=', '=']
  | [b1, b2] => [b64CharOfSextet (b1 / 4), b64CharOfSextet (b1 % 4 * 16 + b2 / 16),
      b64CharOfSextet (b2 % 16 * 4), '=']
  | b1 :: b2 :: b3 :: rest =>
      b64CharOfSextet (b1 / 4) :: b64CharOfSextet (b1 % 4 * 16 + b2 / 16) ::
      b64CharOfSextet (b2 % 16 * 4 + b3 / 64) :: b64CharOfSextet (b3 % 64) ::
      b64encodeBytes rest

/-- `encodePaymentPayload` (`client.ts:301-320`): serialize to JSON, then
base64-encode via `Buffer` if it exists, else via the `TextEncoder`+`btoa`
path (byte-for-byte the same output), else throw.  The runtime's two
capability flags are explicit parameters. -/
def encodePaymentPayload (hasBuffer hasBtoa : Bool) (p : ExactEvmPaymentPayload) :
    Except Err String :=
  let json := serializePayload p
  if hasBuffer then .ok (String.mk (b64encodeBytes json))
  else if hasBtoa then .ok (String.mk (b64encodeBytes json))
  else .error .noBase64Encoder

/-! ## `createPayment` and `request` -/

/-- The nonce string (`client.ts:208-213`): `"0x"`, the unix-seconds
timestamp of the second `Date.now()` reading rendered as 16 hex digits via
`padStart(16, '0')`, then the 24 drawn random bytes as hex pairs. -/
def cpNonce (env : Env) : JStr :=
  litBytes "0x" ++ padStartZero 16 (natToHex (env.nowMs2 / 1000)) ++ hexOfBytes env.random

/-- The EIP-712 domain (`client.ts:215-220`): contract name/version from
the two reads, whose `.catch` fallbacks (`client.ts:196,201`) and `||`
fallbacks (`client.ts:216-217`) both default to `"USD Coin"` / `"2"`; the
option's asset is the verifying contract. -/
def cpDomain (env : Env) (params : PayParams) : Eip712Domain :=
  { name := jsOrBytes (match env.nameRead with | .ok n => n | .error _ => usdCoin) usdCoin
    version := jsOrBytes (match env.verRead with | .ok v => v | .error _ => versionTwo) versionTwo
    chainId := env.chainId
    verifyingContract := params.asset }

/-- The typed message (`client.ts:233-240`) with
`validAfter = now`, `validBefore = now + 3600` (`client.ts:204-206`),
`now = Math.floor(Date.now() / 1000)`. -/
def cpMessage (env : Env) (params : PayParams) : TypedMessage :=
  { «from» := env.accountAddress
    «to» := params.recipient
    value := params.amount
    validAfter := env.nowMs / 1000
    validBefore := env.nowMs / 1000 + 3600
    nonce := cpNonce env }

/-- The authorization record (`client.ts:249-256`): the message's bigint
fields rendered as decimal strings. -/
def cpAuthorization (env : Env) (params : PayParams) : ExactEvmAuthorization :=
  { «from» := env.accountAddress
    «to» := params.recipient
    value := natToDecimal params.amount
    validAfter := natToDecimal (env.nowMs / 1000)
    validBefore := natToDecimal (env.nowMs / 1000 + 3600)
    nonce := cpNonce env }

/-- The returned payload (`client.ts:262-270`): constant `x402Version: 1`,
scheme/network as passed in, signature plus authorization. -/
def cpPayload (env : Env) (params : PayParams) (signature : JStr) : ExactEvmPaymentPayload :=
  { x402Version := 1
    scheme := params.scheme
    network := params.network
    payload := { signature := signature, authorization := cpAuthorization env params } }

/-- `createPayment` (`client.ts:165-277`).  Returns the result of the
`try`/`catch` body together with the domain/message handed to
`signTypedData` (`some` exactly when signing was attempted — in the source
nothing before the `signTypedData` call can throw, because both
`readContract` promises carry `.catch` fallbacks, so the `catch` block
converts exactly the signer's exceptions). -/
def createPayment (env : Env) (params : PayParams) :
    Except Err ExactEvmPaymentPayload × Option (Eip712Domain × TypedMessage) :=
  let domain := cpDomain env params
  let message := cpMessage env params
  match env.sign domain message with
  | .error m => (.error (.paymentError m), some (domain, message))
  | .ok signature => (.ok (cpPayload env params signature), some (domain, message))

/-- The `accepts` field of the duck-typed 402 body
(`initialData as X402PaymentDetails`, `client.ts:125`): `none` when the
body is not of the details shape or the field is missing. -/
def getAccepts : BodyVal → Option (List Accept)
  | .details a _ => a
  | .raw _ => none

/-- The arguments `request` passes to `createPayment` for the selected
option (`client.ts:131-138`): the converted amount, the option's `payTo`,
`resource` (falling back to the url), `asset` and `network`, and its
`scheme` with the `"exact"` fallback. -/
def optParams (url : String) (paymentOption : Accept) (amount : Nat) : PayParams :=
  { amount := amount
    recipient := paymentOption.payTo
    reference := match paymentOption.resource with
      | some r => if r = "" then url else r
      | none => url
    asset := paymentOption.asset
    scheme := jsOrOpt paymentOption.scheme exactScheme
    network := paymentOption.network }

/-- The straight-line tail of `request` after a payment option has been
selected and its amount converted (`client.ts:131-162`): build and sign the
payment, encode it, send the retried request, and classify the second
response.  Named separately so the 402 path can be reasoned about in one
piece. -/
def requestAfterParse {ρ : Type} (env : Env) (url : String) (opts : ReqOptions ρ)
    (resp2 : Resp) (paymentOption : Accept) (amount : Nat) :
    Except Err RequestResult × Tr ρ :=
  let pay := createPayment env (optParams url paymentOption amount)
  match pay.1 with
  | .error e => (.error e, ⟨pay.2, none, none⟩)
  | .ok paymentPayload =>
    match encodePaymentPayload env.hasBuffer env.hasBtoa paymentPayload with
    | .error e => (.error e, ⟨pay.2, some paymentPayload, none⟩)
    | .ok base64Payment =>
      let retryHeaders : HMap := fun k =>
        if k = "X-PAYMENT" then some base64Payment else opts.headers k
      let sent : SentReq ρ := { url := url, headers := retryHeaders, rest := opts.rest }
      if resp2.status ≠ 200 then
        (.error (.settlementError resp2.status resp2.body),
         ⟨pay.2, some paymentPayload, some sent⟩)
      else
        (.ok { data := resp2.body, status := resp2.status, headers := resp2.headers },
         ⟨pay.2, some paymentPayload, some sent⟩)

/-- `request` (`client.ts:109-163`), with the two fetches abstracted to the
two observed responses.  Returns the call's outcome and its trace. -/
def request {ρ : Type} (env : Env) (url : String) (opts : ReqOptions ρ)
    (resp1 resp2 : Resp) : Except Err RequestResult × Tr ρ :=
  if resp1.status ≠ 402 then
    (.ok { data := resp1.body, status := resp1.status, headers := resp1.headers },
     { signedWith := none, payload := none, secondSent := none })
  else
    match getAccepts resp1.body with
    | none => (.error .protocolError, ⟨none, none, none⟩)
    | some [] => (.error .protocolError, ⟨none, none, none⟩)
    | some (paymentOption :: _) =>
      match parseBigInt paymentOption.maxAmountRequired with
      | none => (.error .bigIntConversionError, ⟨none, none, none⟩)
      | some amount => requestAfterParse env url opts resp2 paymentOption amount

/-! ## Rendered error messages -/

/-- `JSON.stringify` of one modelled `accepts` entry (fields the model
keeps, in interface order; absent optional fields are omitted, as
`JSON.stringify` omits `undefined` properties). -/
def stringifyAccept (a : Accept) : JStr :=
  let fields : List JStr :=
    (match a.scheme with
      | some s => [litBytes "\"scheme\":" ++ jsonStr s]
      | none => []) ++
    [litBytes "\"network\":" ++ jsonStr a.network,
     litBytes "\"maxAmountRequired\":" ++ jsonStr a.maxAmountRequired] ++
    (match a.resource with
      | some r => [litBytes "\"resource\":" ++ jsonStr (litBytes r)]
      | none => []) ++
    [litBytes "\"payTo\":" ++ jsonStr a.payTo,
     litBytes "\"asset\":" ++ jsonStr a.asset]
  [123] ++ List.intercalate [44] fields ++ [125]

/-- `JSON.stringify` of a parsed body value: a `raw` body is represented by
its serialization, a details body serializes its modelled fields. -/
def stringifyBody : BodyVal → JStr
  | .raw s => s
  | .details accepts ver =>
      [123] ++
      (match accepts with
        | some l =>
          litBytes "\"accepts\":[" ++ List.intercalate [44] (l.map stringifyAccept) ++ [93] ++
          (match ver with
            | some v => [44] ++ litBytes "\"x402Version\":" ++ natToDecimal v
            | none => [])
        | none =>
          match ver with
          | some v => litBytes "\"x402Version\":" ++ natToDecimal v
          | none => []) ++ [125]

/-! ## Decoding (transport-header → payload)

The repository contains only the encoder; the consumer of the header is the
external facilitator.  The decoder below is therefore modelled from the
spec's description of the representation — "base64 of the JSON-serialized
payload" — as the inverse reading: base64-decode the header, then parse the
JSON object shape of `ExactEvmPaymentPayload`. -/

/-- Sextet value of a standard base64 alphabet character. -/
def b64SextetOfChar (c : Char) : Option Nat :=
  let n := c.toNat
  if 65 ≤ n ∧ n ≤ 90 then some (n - 65)
  else if 97 ≤ n ∧ n ≤ 122 then some (n - 71)
  else if 48 ≤ n ∧ n ≤ 57 then some (n + 4)
  else if n = 43 then some 62
  else if n = 47 then some 63
  else none

/-- Modelled from the spec: standard base64 decoding (the inverse of the
encoding the client emits), strict about padding and length. -/
def b64decodeChars : List Char → Option (List Nat)
  | [] => some []
  | c1 :: c2 :: c3 :: c4 :: rest => do
      let s1 ← b64SextetOfChar c1
      let s2 ← b64SextetOfChar c2
      if c3 = '=' then
        if c4 = '=' ∧ rest = [] then some [s1 * 4 + s2 / 16] else none
      else do
        let s3 ← b64SextetOfChar c3
        if c4 = '=' then
          if rest = [] then some [s1 * 4 + s2 / 16, s2 % 16 * 16 + s3 / 4] else none
        else do
          let s4 ← b64SextetOfChar c4
          let tl ← b64decodeChars rest
          some ((s1 * 4 + s2 / 16) :: (s2 % 16 * 16 + s3 / 4) :: (s3 % 4 * 64 + s4) :: tl)
  | _ => none

/-- Value of a JSON single-character escape (`\" \\ \/ \b \t \n \f \r`). -/
def unescChar (e : Nat) : Option Nat :=
  if e = 34 then some 34
  else if e = 92 then some 92
  else if e = 47 then some 47
  else if e = 98 then some 8
  else if e = 116 then some 9
  else if e = 110 then some 10
  else if e = 102 then some 12
  else if e = 114 then some 13
  else none

/-- Parse the body of a JSON string literal up to and including its closing
quote, returning the unescaped content and the remaining input. -/
def parseJStrBody (l : JStr) : Option (JStr × JStr) :=
  match l with
  | [] => none
  | b :: rest =>
    if b = 34 then some ([], rest)
    else if b = 92 then
      match rest with
      | [] => none
      | e :: rest2 =>
        if e = 117 then
          match rest2 with
          | h1 :: h2 :: h3 :: h4 :: rest3 => do
              let v1 ← hexVal h1
              let v2 ← hexVal h2
              let v3 ← hexVal h3
              let v4 ← hexVal h4
              let (s, r) ← parseJStrBody rest3
              pure ((((v1 * 16 + v2) * 16 + v3) * 16 + v4) :: s, r)
          | _ => none
        else do
          let c ← unescChar e
          let (s, r) ← parseJStrBody rest2
          pure (c :: s, r)
    else do
      let (s, r) ← parseJStrBody rest
      pure (b :: s, r)
termination_by l.length
decreasing_by all_goals simp_wf <;> omega

/-- Parse a JSON string literal including its opening quote. -/
def parseJString (l : JStr) : Option (JStr × JStr) :=
  match l with
  | b :: rest => if b = 34 then parseJStrBody rest else none
  | [] => none

/-- Strip an expected literal prefix. -/
def parseLit : JStr → JStr → Option JStr
  | [], r => some r
  | _ :: _, [] => none
  | e :: es, b :: bs => if b = e then parseLit es bs else none

/-- Greedily accumulate decimal digits. -/
def parseNatAux : Nat → JStr → Nat × JStr
  | acc, [] => (acc, [])
  | acc, b :: rest =>
    if 48 ≤ b ∧ b ≤ 57 then parseNatAux (acc * 10 + (b - 48)) rest else (acc, b :: rest)

/-- Parse a decimal natural number (at least one digit). -/
def parseNatJ (l : JStr) : Option (Nat × JStr) :=
  match l with
  | b :: _ => if 48 ≤ b ∧ b ≤ 57 then some (parseNatAux 0 l) else none
  | [] => none

/-- Strip the literal bytes of `key`, then parse a JSON string literal. -/
def parseField (key : String) (l : JStr) : Option (JStr × JStr) := do
  let r ← parseLit (litBytes key) l
  parseJString r

/-- Parse the serialized `authorization` object's fields (after its opening
brace and `"from":` key, which the caller strips as part of the previous
literal). -/
def parseAuthorization (l : JStr) : Option (ExactEvmAuthorization × JStr) := do
  let (fromA, r) ← parseField ",\"authorization\":\x7b\"from\":" l
  let (toA, r) ← parseField ",\"to\":" r
  let (value, r) ← parseField ",\"value\":" r
  let (validAfter, r) ← parseField ",\"validAfter\":" r
  let (validBefore, r) ← parseField ",\"validBefore\":" r
  let (nonce, r) ← parseField ",\"nonce\":" r
  pure (⟨fromA, toA, value, validAfter, validBefore, nonce⟩, r)

/-- Modelled from the spec: parse the JSON-serialized
`ExactEvmPaymentPayload` object shape back into its fields (the inverse of
`serializePayload`), requiring the input to be fully consumed. -/
def parsePayload (l : JStr) : Option ExactEvmPaymentPayload := do
  let r ← parseLit (litBytes "\x7b\"x402Version\":") l
  let (ver, r) ← parseNatJ r
  let (scheme, r) ← parseField ",\"scheme\":" r
  let (network, r) ← parseField ",\"network\":" r
  let (signature, r) ← parseField ",\"payload\":\x7b\"signature\":" r
  let (auth, r) ← parseAuthorization r
  let r ← parseLit (litBytes "\x7d\x7d\x7d") r
  if r = [] then
    pure ⟨ver, scheme, network, ⟨signature, auth⟩⟩
  else none

/-- Modelled from the spec: decode a transport header value back into the
payload it encodes (base64-decode, then parse the JSON shape). -/
def decodePaymentHeader (s : String) : Option ExactEvmPaymentPayload :=
  (b64decodeChars s.data).bind parsePayload

/-- The exact `new Error(...)` message of each throw site in `client.ts`. -/
def errMessage : Err → JStr
  | .protocolError => litBytes "No payment options available in 402 response"
  | .bigIntConversionError => litBytes "Cannot convert to a BigInt"
  | .paymentError cause => litBytes "Failed to create payment: " ++ cause
  | .settlementError status body =>
      litBytes "Payment accepted but request failed: " ++ natToDecimal status ++
      litBytes ". " ++ stringifyBody body
  | .noBase64Encoder => litBytes "No base64 encoder available in current environment"

/-! ## Lemmas: decimal rendering and parsing -/

theorem natToDecimal_digits (n : Nat) : ∀ b ∈ natToDecimal n, 48 ≤ b ∧ b ≤ 57 := by
  induction n using Nat.strong_induction_on with
  | _ n ih =>
    rw [natToDecimal_eq]
    split
    · intro b hb
      rcases List.mem_singleton.mp hb with rfl
      omega
    · intro b hb
      rcases List.mem_append.mp hb with h | h
      · exact ih (n / 10) (Nat.div_lt_self (by omega) (by omega)) b h
      · rcases List.mem_singleton.mp h with rfl
        have := Nat.mod_lt n (show 0 < 10 by omega)
        omega

theorem natToDecimal_ne_nil (n : Nat) : natToDecimal n ≠ [] := by
  rw [natToDecimal_eq]
  split
  · simp
  · simp

theorem natToDecimal_foldl (n acc : Nat) :
    (natToDecimal n).foldl (fun a b => a * 10 + (b - 48)) acc =
      acc * 10 ^ (natToDecimal n).length + n := by
  induction n using Nat.strong_induction_on generalizing acc with
  | _ n ih =>
    rw [natToDecimal_eq]
    split
    · simp only [List.foldl_cons, List.foldl_nil, List.length_singleton]
      omega
    · rw [List.foldl_append, List.length_append,
        ih (n / 10) (Nat.div_lt_self (by omega) (by omega)) acc]
      simp only [List.foldl_cons, List.foldl_nil, List.length_singleton]
      have hadd : 48 + n % 10 - 48 = n % 10 := by omega
      rw [hadd, pow_succ]
      have hdm : n / 10 * 10 + n % 10 = n := by omega
      calc (acc * 10 ^ (natToDecimal (n / 10)).length + n / 10) * 10 + n % 10
      _ = acc * (10 ^ (natToDecimal (n / 10)).length * 10) + (n / 10 * 10 + n % 10) := by ring
      _ = acc * (10 ^ (natToDecimal (n / 10)).length * 10) + n := by rw [hdm]

theorem parseBigInt_natToDecimal (n : Nat) : parseBigInt (natToDecimal n) = some n := by
  unfold parseBigInt
  rw [if_pos]
  · rw [natToDecimal_foldl]
    simp
  · rw [List.all_eq_true]
    intro b hb
    exact decide_eq_true (natToDecimal_digits n b hb)

theorem parseNatAux_natToDecimal (n : Nat) (acc : Nat) (rest : JStr) :
    parseNatAux acc (natToDecimal n ++ rest) =
      parseNatAux (acc * 10 ^ (natToDecimal n).length + n) rest := by
  induction n using Nat.strong_induction_on generalizing acc rest with
  | _ n ih =>
    rw [natToDecimal_eq]
    split
    · next h =>
      simp only [List.singleton_append, List.length_singleton, parseNatAux]
      rw [if_pos (by omega)]
      congr 1
      omega
    · next h =>
      rw [List.append_assoc, ih (n / 10) (Nat.div_lt_self (by omega) (by omega)) acc]
      simp only [List.singleton_append, List.length_append, List.length_singleton, parseNatAux]
      rw [if_pos (by have := Nat.mod_lt n (show 0 < 10 by omega); omega)]
      congr 1
      rw [pow_succ]
      have hdm : n / 10 * 10 + n % 10 = n := by omega
      calc (acc * 10 ^ (natToDecimal (n / 10)).length + n / 10) * 10 + (48 + n % 10 - 48)
      _ = acc * (10 ^ (natToDecimal (n / 10)).length * 10) + (n / 10 * 10 + n % 10) := by
          ring_nf
          omega
      _ = acc * (10 ^ (natToDecimal (n / 10)).length * 10) + n := by rw [hdm]

theorem parseNatJ_natToDecimal (n : Nat) (rest : JStr)
    (h : ∀ b ∈ rest.head?, ¬(48 ≤ b ∧ b ≤ 57)) :
    parseNatJ (natToDecimal n ++ rest) = some (n, rest) := by
  obtain ⟨d, t, hdt⟩ : ∃ d t, natToDecimal n = d :: t := by
    cases hnd : natToDecimal n with
    | nil => exact absurd hnd (natToDecimal_ne_nil n)
    | cons d t => exact ⟨d, t, rfl⟩
  have hd : 48 ≤ d ∧ d ≤ 57 := natToDecimal_digits n d (by rw [hdt]; simp)
  have haux : parseNatAux 0 (natToDecimal n ++ rest) = (n, rest) := by
    rw [parseNatAux_natToDecimal]
    simp only [Nat.zero_mul, Nat.zero_add]
    cases rest with
    | nil => rfl
    | cons b t2 =>
      have hb : ¬(48 ≤ b ∧ b ≤ 57) := h b (by simp)
      simp only [parseNatAux]
      rw [if_neg hb]
  rw [hdt] at haux ⊢
  simp only [List.cons_append, parseNatJ]
  rw [if_pos hd, ← List.cons_append, haux]

/-! ## Lemmas: literal and string-literal parsing -/

theorem string_data_mk (l : List Char) : (String.mk l).data = l := rfl

theorem decodePaymentHeader_mk (l : List Char) :
    decodePaymentHeader (String.mk l) = (b64decodeChars l).bind parsePayload := by
  unfold decodePaymentHeader
  rw [string_data_mk]


theorem parseLit_append (k : JStr) (rest : JStr) : parseLit k (k ++ rest) = some rest := by
  induction k with
  | nil => rfl
  | cons e es ih =>
    simp only [List.cons_append, parseLit, if_pos rfl]
    exact ih

theorem hexVal_hexDigitByte : ∀ v < 16, hexVal (hexDigitByte v) = some v := by decide

theorem parseJStrBody_escBytes (s : JStr) (rest : JStr) :
    parseJStrBody (escBytes s ++ 34 :: rest) = some (s, rest) := by
  induction s with
  | nil =>
    rw [show escBytes [] = [] from rfl, List.nil_append, parseJStrBody.eq_def]
    simp
  | cons b t ih =>
    have hesc : escBytes (b :: t) = escByte b ++ escBytes t := by
      simp [escBytes]
    rw [hesc, List.append_assoc]
    by_cases h34 : b = 34
    · subst h34
      rw [show escByte 34 = [92, 34] from rfl]
      rw [parseJStrBody.eq_def]
      simp [unescChar, ih]
    · by_cases h92 : b = 92
      · subst h92
        rw [show escByte 92 = [92, 92] from rfl]
        rw [parseJStrBody.eq_def]
        simp [unescChar, ih]
      · by_cases h8 : b = 8
        · subst h8
          rw [show escByte 8 = [92, 98] from rfl]
          rw [parseJStrBody.eq_def]
          simp [unescChar, ih]
        · by_cases h9 : b = 9
          · subst h9
            rw [show escByte 9 = [92, 116] from rfl]
            rw [parseJStrBody.eq_def]
            simp [unescChar, ih]
          · by_cases h10 : b = 10
            · subst h10
              rw [show escByte 10 = [92, 110] from rfl]
              rw [parseJStrBody.eq_def]
              simp [unescChar, ih]
            · by_cases h12 : b = 12
              · subst h12
                rw [show escByte 12 = [92, 102] from rfl]
                rw [parseJStrBody.eq_def]
                simp [unescChar, ih]
              · by_cases h13 : b = 13
                · subst h13
                  rw [show escByte 13 = [92, 114] from rfl]
                  rw [parseJStrBody.eq_def]
                  simp [unescChar, ih]
                · by_cases hc : b < 32
                  · have hb1 : escByte b =
                        [92, 117, 48, 48, hexDigitByte (b / 16), hexDigitByte (b % 16)] := by
                      unfold escByte
                      rw [if_neg h34, if_neg h92, if_neg h8, if_neg h9, if_neg h10,
                        if_neg h12, if_neg h13, if_pos hc]
                    rw [hb1]
                    rw [parseJStrBody.eq_def]
                    have hv1 : hexVal 48 = some 0 := by decide
                    have hv3 : hexVal (hexDigitByte (b / 16)) = some (b / 16) :=
                      hexVal_hexDigitByte (b / 16) (by omega)
                    have hv4 : hexVal (hexDigitByte (b % 16)) = some (b % 16) :=
                      hexVal_hexDigitByte (b % 16) (by omega)
                    simp only [List.cons_append, List.nil_append]
                    norm_num [hv1, hv3, hv4, ih]
                    omega
                  · have hb1 : escByte b = [b] := by
                      unfold escByte
                      rw [if_neg h34, if_neg h92, if_neg h8, if_neg h9, if_neg h10,
                        if_neg h12, if_neg h13, if_neg hc]
                    rw [hb1]
                    rw [parseJStrBody.eq_def]
                    simp only [List.cons_append, List.nil_append]
                    rw [if_neg h34, if_neg h92]
                    simp [ih]

theorem parseJString_jsonStr (s : JStr) (rest : JStr) :
    parseJString (jsonStr s ++ rest) = some (s, rest) := by
  have h : jsonStr s ++ rest = 34 :: (escBytes s ++ 34 :: rest) := by
    simp [jsonStr]
  rw [h]
  simp only [parseJString, if_pos rfl]
  exact parseJStrBody_escBytes s rest

theorem parseField_append (key : String) (s : JStr) (rest : JStr) :
    parseField key (litBytes key ++ (jsonStr s ++ rest)) = some (s, rest) := by
  simp [parseField, parseLit_append, parseJString_jsonStr]

/-! ## Lemmas: base64 decode ∘ encode -/

theorem b64SextetOfChar_ofSextet : ∀ n < 64, b64SextetOfChar (b64CharOfSextet n) = some n := by
  decide

theorem b64CharOfSextet_ne_pad : ∀ n < 64, b64CharOfSextet n ≠ '=' := by decide

theorem b64decode_encode : ∀ l : List Nat, (∀ b ∈ l, b < 256) →
    b64decodeChars (b64encodeBytes l) = some l
  | [], _ => rfl
  | [b1], h => by
      have hb1 : b1 < 256 := h b1 (by simp)
      simp only [b64encodeBytes, b64decodeChars,
        b64SextetOfChar_ofSextet (b1 / 4) (by omega),
        b64SextetOfChar_ofSextet (b1 % 4 * 16) (by omega)]
      simp only [Option.bind_eq_bind, Option.some_bind, if_pos rfl, and_self, ite_true]
      congr 2
      omega
  | [b1, b2], h => by
      have hb1 : b1 < 256 := h b1 (by simp)
      have hb2 : b2 < 256 := h b2 (by simp)
      simp only [b64encodeBytes, b64decodeChars,
        b64SextetOfChar_ofSextet (b1 / 4) (by omega),
        b64SextetOfChar_ofSextet (b1 % 4 * 16 + b2 / 16) (by omega),
        b64SextetOfChar_ofSextet (b2 % 16 * 4) (by omega)]
      simp only [Option.bind_eq_bind, Option.some_bind,
        if_neg (b64CharOfSextet_ne_pad (b2 % 16 * 4) (by omega)), if_pos rfl, ite_true]
      congr 2
      · omega
      · congr 1
        omega
  | b1 :: b2 :: b3 :: b4 :: rest, h => by
      have hb1 : b1 < 256 := h b1 (by simp)
      have hb2 : b2 < 256 := h b2 (by simp)
      have hb3 : b3 < 256 := h b3 (by simp)
      have ih := b64decode_encode (b4 :: rest) (fun b hb => h b (by simp at hb ⊢; tauto))
      simp only [b64encodeBytes, b64decodeChars,
        b64SextetOfChar_ofSextet (b1 / 4) (by omega),
        b64SextetOfChar_ofSextet (b1 % 4 * 16 + b2 / 16) (by omega),
        b64SextetOfChar_ofSextet (b2 % 16 * 4 + b3 / 64) (by omega),
        b64SextetOfChar_ofSextet (b3 % 64) (by omega)]
      simp only [Option.bind_eq_bind, Option.some_bind,
        if_neg (b64CharOfSextet_ne_pad (b2 % 16 * 4 + b3 / 64) (by omega)),
        if_neg (b64CharOfSextet_ne_pad (b3 % 64) (by omega))]
      rw [ih]
      simp only [Option.some_bind]
      congr 3
      · omega
      · omega
      · congr 1
        omega
  | [b1, b2, b3], h => by
      have hb1 : b1 < 256 := h b1 (by simp)
      have hb2 : b2 < 256 := h b2 (by simp)
      have hb3 : b3 < 256 := h b3 (by simp)
      simp only [b64encodeBytes, b64decodeChars,
        b64SextetOfChar_ofSextet (b1 / 4) (by omega),
        b64SextetOfChar_ofSextet (b1 % 4 * 16 + b2 / 16) (by omega),
        b64SextetOfChar_ofSextet (b2 % 16 * 4 + b3 / 64) (by omega),
        b64SextetOfChar_ofSextet (b3 % 64) (by omega)]
      simp only [Option.bind_eq_bind, Option.some_bind,
        if_neg (b64CharOfSextet_ne_pad (b2 % 16 * 4 + b3 / 64) (by omega)),
        if_neg (b64CharOfSextet_ne_pad (b3 % 64) (by omega))]
      congr 3
      · omega
      · omega
      · congr 1
        omega

theorem decodeHeader_encodeBytes (l : List Nat) (h : ∀ b ∈ l, b < 256) :
    decodePaymentHeader (String.mk (b64encodeBytes l)) = parsePayload l := by
  rw [decodePaymentHeader_mk, b64decode_encode l h]
  rfl

/-! ## Lemmas: JSON parse ∘ serialize -/

theorem parseLit_self (k : JStr) : parseLit k k = some [] := by
  simpa using parseLit_append k []

theorem parseNatJ_natToDecimal_lit (n : Nat) (s : String) (l : JStr)
    (hc : (litBytes s).head? = some 44) :
    parseNatJ (natToDecimal n ++ (litBytes s ++ l)) = some (n, litBytes s ++ l) := by
  apply parseNatJ_natToDecimal
  intro b hb
  cases hl : litBytes s with
  | nil => rw [hl] at hc; simp at hc
  | cons a t =>
    rw [hl] at hc
    simp only [List.head?_cons, Option.some_inj] at hc
    rw [hl] at hb
    simp only [List.cons_append, List.head?_cons, Option.mem_def, Option.some_inj] at hb
    omega

theorem parsePayload_serializePayload (p : ExactEvmPaymentPayload) :
    parsePayload (serializePayload p) = some p := by
  unfold serializePayload parsePayload
  simp only [List.append_assoc]
  rw [parseLit_append]
  simp only [Option.bind_eq_bind, Option.some_bind]
  rw [parseNatJ_natToDecimal_lit _ _ _ (by rfl)]
  simp only [Option.some_bind]
  rw [parseField_append]
  simp only [Option.some_bind]
  rw [parseField_append]
  simp only [Option.some_bind]
  rw [parseField_append]
  simp only [Option.some_bind]
  unfold parseAuthorization
  rw [parseField_append]
  simp only [Option.bind_eq_bind, Option.some_bind]
  rw [parseField_append]
  simp only [Option.some_bind]
  rw [parseField_append]
  simp only [Option.some_bind]
  rw [parseField_append]
  simp only [Option.some_bind]
  rw [parseField_append]
  simp only [Option.some_bind]
  rw [parseField_append]
  simp only [Option.pure_def, Option.some_bind, parseLit_self]
  rfl

/-! ## Lemmas: byte bounds of the serialized payload -/

/-- Every byte of a modelled JS string is an actual byte. -/
abbrev WFStr (s : JStr) : Prop := ∀ b ∈ s, b < 256

/-- All string fields of a payload are byte sequences. -/
abbrev WFPayload (p : ExactEvmPaymentPayload) : Prop :=
  WFStr p.scheme ∧ WFStr p.network ∧ WFStr p.payload.signature ∧
  WFStr p.payload.authorization.«from» ∧ WFStr p.payload.authorization.«to» ∧
  WFStr p.payload.authorization.value ∧ WFStr p.payload.authorization.validAfter ∧
  WFStr p.payload.authorization.validBefore ∧ WFStr p.payload.authorization.nonce

theorem hexDigitByte_lt (v : Nat) : hexDigitByte v < 48 + v + 40 := by
  unfold hexDigitByte
  split <;> omega

theorem escByte_lt (a : Nat) (ha : a < 256) : ∀ b ∈ escByte a, b < 256 := by
  intro b hb
  have hd1 := hexDigitByte_lt (a / 16)
  have hd2 := hexDigitByte_lt (a % 16)
  unfold escByte at hb
  split_ifs at hb <;>
    simp only [List.mem_cons, List.not_mem_nil, or_false] at hb <;>
    omega

theorem escBytes_lt (s : JStr) (h : WFStr s) : ∀ b ∈ escBytes s, b < 256 := by
  intro b hb
  simp only [escBytes, List.mem_flatMap] at hb
  obtain ⟨a, ha, hba⟩ := hb
  exact escByte_lt a (h a ha) b hba

theorem jsonStr_lt (s : JStr) (h : WFStr s) : ∀ b ∈ jsonStr s, b < 256 := by
  intro b hb
  rcases List.mem_cons.mp hb with rfl | h2
  · omega
  rcases List.mem_append.mp h2 with h3 | h3
  · exact escBytes_lt s h b h3
  · rcases List.mem_singleton.mp h3 with rfl
    omega

theorem natToDecimal_lt (n : Nat) : ∀ b ∈ natToDecimal n, b < 256 := by
  intro b hb
  have := natToDecimal_digits n b hb
  omega

theorem serializePayload_lt (p : ExactEvmPaymentPayload) (h : WFPayload p) :
    ∀ b ∈ serializePayload p, b < 256 := by
  obtain ⟨h1, h2, h3, h4, h5, h6, h7, h8, h9⟩ := h
  unfold serializePayload
  simp only [List.append_assoc, List.forall_mem_append]
  refine ⟨by decide, natToDecimal_lt _, by decide, jsonStr_lt _ h1, by decide,
    jsonStr_lt _ h2, by decide, jsonStr_lt _ h3, by decide, jsonStr_lt _ h4,
    by decide, jsonStr_lt _ h5, by decide, jsonStr_lt _ h6, by decide,
    jsonStr_lt _ h7, by decide, jsonStr_lt _ h8, by decide, jsonStr_lt _ h9,
    by decide⟩

/-! ## Lemmas: hex rendering and the big-endian nonce layout -/

theorem hexToBytes_hexOfBytes (bs : List Nat) (h : ∀ b ∈ bs, b < 256) :
    hexToBytes (hexOfBytes bs) = some bs := by
  induction bs with
  | nil => rfl
  | cons b t ih =>
    have hb : b < 256 := h b (by simp)
    have hrec := ih (fun x hx => h x (by simp [hx]))
    have hsplit : hexOfBytes (b :: t) =
        hexDigitByte (b / 16) :: hexDigitByte (b % 16) :: hexOfBytes t := by
      simp [hexOfBytes]
    rw [hsplit]
    simp only [hexToBytes, hexVal_hexDigitByte (b / 16) (by omega),
      hexVal_hexDigitByte (b % 16) (by omega), hrec,
      Option.bind_eq_bind, Option.some_bind, Option.pure_def]
    congr 2
    omega

theorem hexOfBytes_append (l1 l2 : List Nat) :
    hexOfBytes (l1 ++ l2) = hexOfBytes l1 ++ hexOfBytes l2 := by
  simp [hexOfBytes]

/-- Nibble-wise hex rendering of `t` on exactly `k` digits, most
significant first (auxiliary for relating `padStart` to byte layout). -/
def nibbleHex : Nat → Nat → JStr
  | 0, _ => []
  | k + 1, t => nibbleHex k (t / 16) ++ [hexDigitByte (t % 16)]

theorem hexOfBytes_beBytes (k t : Nat) : hexOfBytes (beBytes k t) = nibbleHex (2 * k) t := by
  induction k generalizing t with
  | zero => rfl
  | succ k ih =>
    rw [show 2 * (k + 1) = 2 * k + 1 + 1 by omega]
    simp only [beBytes, hexOfBytes_append, ih, nibbleHex]
    rw [show t / 16 / 16 = t / 256 by omega]
    rw [show t / 16 % 16 = t % 256 / 16 by omega]
    rw [show t % 16 = t % 256 % 16 by omega]
    simp [hexOfBytes]

theorem nibbleHex_zero (k : Nat) : nibbleHex k 0 = List.replicate k 48 := by
  induction k with
  | zero => rfl
  | succ k ih =>
    simp only [nibbleHex, Nat.zero_div, Nat.zero_mod, ih]
    rw [show hexDigitByte 0 = 48 from rfl, List.replicate_succ' (n := k)]

theorem natToHex_length_le (k t : Nat) (ht : t < 16 ^ k) (hk : 0 < k) :
    (natToHex t).length ≤ k := by
  induction k generalizing t with
  | zero => omega
  | succ k ih =>
    rw [natToHex_eq]
    split
    · simp
    · next h =>
      have hk' : 0 < k := by
        rcases Nat.eq_zero_or_pos k with rfl | hp
        · simp at ht; omega
        · exact hp
      have htdiv : t / 16 < 16 ^ k := by
        rw [Nat.div_lt_iff_lt_mul (by omega)]
        calc t < 16 ^ (k + 1) := ht
        _ = 16 ^ k * 16 := by rw [pow_succ]
      have := ih (t / 16) htdiv hk'
      simp only [List.length_append, List.length_singleton]
      omega

theorem nibbleHex_padStart (k t : Nat) (ht : t < 16 ^ k) (hk : 0 < k) :
    nibbleHex k t = padStartZero k (natToHex t) := by
  induction k generalizing t with
  | zero => omega
  | succ k ih =>
    by_cases hsmall : t < 16
    · have h0 : t / 16 = 0 := by omega
      simp only [nibbleHex, h0, nibbleHex_zero]
      rw [natToHex_eq, if_pos hsmall]
      simp only [padStartZero, List.length_singleton]
      rw [Nat.mod_eq_of_lt hsmall, Nat.add_sub_cancel]
    · have hk' : 0 < k := by
        rcases Nat.eq_zero_or_pos k with rfl | hp
        · simp at ht; omega
        · exact hp
      have htdiv : t / 16 < 16 ^ k := by
        rw [Nat.div_lt_iff_lt_mul (by omega)]
        calc t < 16 ^ (k + 1) := ht
        _ = 16 ^ k * 16 := by rw [pow_succ]
      have hlen := natToHex_length_le k (t / 16) htdiv hk'
      simp only [nibbleHex, ih (t / 16) htdiv hk']
      conv_rhs => rw [natToHex_eq]
      rw [if_neg hsmall]
      simp only [padStartZero, List.length_append, List.length_singleton]
      rw [List.append_assoc]
      have hsub : k - (natToHex (t / 16)).length =
          k + 1 - ((natToHex (t / 16)).length + 1) := by omega
      rw [hsub]

/-! ## Concrete fixtures (used by witnesses and counterexamples) -/

/-- A sample request URL. -/
def url0 : String := "https://api.example.com/screen"

/-- An empty header object. -/
def noHeaders : HMap := fun _ => none

/-- A representative accepted payment option. -/
def sampleAccept : Accept :=
  { scheme := some (litBytes "exact")
    network := litBytes "base"
    maxAmountRequired := litBytes "10000"
    resource := some "https://api.example.com/screen"
    payTo := litBytes "0x209693Bc6afc0C5328bA36FaF03C514EF312287C"
    asset := litBytes "0x833589fCD6eDb6E08f4c7C32D4f71b54bdA02913" }

/-- A signer that always succeeds with a fixed signature. -/
def okSigner : Eip712Domain → TypedMessage → Except JStr JStr :=
  fun _ _ => .ok (litBytes "0xdeadbeefcafe")

/-- A representative environment: resolved contract metadata, a working
signer, fixed clock readings, fixed "random" bytes, `Buffer` present. -/
def sampleEnv : Env :=
  { accountAddress := litBytes "0x36d923Bb46FF04E7eb5b2E26c73a7fA2CCcF4399"
    chainId := 8453
    nameRead := .ok (litBytes "USD Coin")
    verRead := .ok (litBytes "2")
    sign := okSigner
    nowMs := 1700000000123
    nowMs2 := 1700000000234
    random := List.replicate 24 171
    hasBuffer := true
    hasBtoa := false }

/-- A 402 response with the given parsed body. -/
def resp402 (b : BodyVal) : Resp := { status := 402, headers := noHeaders, body := b }

/-- A 402 body offering exactly `sampleAccept`. -/
def sampleBody402 : BodyVal := .details (some [sampleAccept]) (some 1)

/-- A successful second response. -/
def respOk : Resp :=
  { status := 200, headers := noHeaders, body := .raw (litBytes "\x7b\x7d") }

/-- A 200 first response (non-402 passthrough case). -/
def sampleResp200 : Resp :=
  { status := 200, headers := noHeaders, body := .raw (litBytes "ok") }

/-- Sample caller options, with one caller-supplied header and an opaque
rest value. -/
def sampleOpts : ReqOptions Nat :=
  { headers := fun k => if k = "Accept" then some "application/json" else none
    rest := 7 }

/-- Sample parameters for direct `createPayment` calls. -/
def samplePayParams : PayParams :=
  { amount := 10000
    recipient := sampleAccept.payTo
    reference := "https://api.example.com/screen"
    asset := sampleAccept.asset
    scheme := litBytes "exact"
    network := litBytes "base" }

/-- A placeholder payload (for total projections out of `Option`). -/
def dummyPayload : ExactEvmPaymentPayload :=
  ⟨0, [], [], ⟨[], ⟨[], [], [], [], [], []⟩⟩⟩

/-! ## Path lemma: `request` on a 402 with a usable first option -/

theorem request_402 {ρ : Type} (env : Env) (url : String) (opts : ReqOptions ρ)
    (resp1 resp2 : Resp) (opt : Accept) (tl : List Accept) (amt : Nat)
    (h402 : resp1.status = 402)
    (hacc : getAccepts resp1.body = some (opt :: tl))
    (hamt : parseBigInt opt.maxAmountRequired = some amt) :
    request env url opts resp1 resp2 = requestAfterParse env url opts resp2 opt amt := by
  unfold request
  rw [if_neg (by omega), hacc]
  dsimp only
  rw [hamt]

theorem beBytes_length (k t : Nat) : (beBytes k t).length = k := by
  induction k generalizing t with
  | zero => rfl
  | succ k ih => simp [beBytes, ih]

theorem beBytes_lt (k t : Nat) : ∀ b ∈ beBytes k t, b < 256 := by
  induction k generalizing t with
  | zero => simp [beBytes]
  | succ k ih =>
    intro b hb
    simp only [beBytes, List.mem_append, List.mem_singleton] at hb
    rcases hb with hb | rfl
    · exact ih (t / 256) b hb
    · omega

/-- The timestamp half of the nonce: the `padStart`ed hex rendering of the
unix-seconds value is exactly the hex rendering of its 8 big-endian bytes. -/
theorem padStart_natToHex_eq_beBytes (t : Nat) (ht : t < 2 ^ 64) :
    padStartZero 16 (natToHex t) = hexOfBytes (beBytes 8 t) := by
  rw [hexOfBytes_beBytes]
  rw [show (2 * 8 : Nat) = 16 from rfl]
  exact (nibbleHex_padStart 16 t (by norm_num at ht ⊢; omega) (by omega)).symm

/-! ## Claims -/

/-- C7: for every initial response with status other than 402, `request`
returns that response's parsed body, status and headers unchanged, performs
no signing, and issues no second request. -/
theorem request_non402_passthrough {ρ : Type} (env : Env) (url : String)
    (opts : ReqOptions ρ) (resp1 resp2 : Resp) (h : resp1.status ≠ 402) :
    request env url opts resp1 resp2 =
      (.ok { data := resp1.body, status := resp1.status, headers := resp1.headers },
       { signedWith := none, payload := none, secondSent := none }) := by
  unfold request
  rw [if_pos h]

/-- Witness for C7 at a concrete 200 response. -/
theorem request_non402_passthrough_witness :
    ((200 : Nat) ≠ 402) ∧
    request sampleEnv url0 sampleOpts sampleResp200 respOk =
      (.ok { data := sampleResp200.body, status := sampleResp200.status,
             headers := sampleResp200.headers },
       { signedWith := none, payload := none, secondSent := none }) :=
  ⟨by decide,
   request_non402_passthrough sampleEnv url0 sampleOpts sampleResp200 respOk (by decide)⟩

/-- C6: for every 402 response whose body has a missing or empty `accepts`
array, `request` fails with the protocol error, with no signing attempted
and no second request issued. -/
theorem request_no_options_protocol_error {ρ : Type} (env : Env) (url : String)
    (opts : ReqOptions ρ) (resp1 resp2 : Resp)
    (h402 : resp1.status = 402)
    (hacc : getAccepts resp1.body = none ∨ getAccepts resp1.body = some []) :
    request env url opts resp1 resp2 =
      (.error .protocolError, { signedWith := none, payload := none, secondSent := none }) := by
  unfold request
  rw [if_neg (by omega)]
  rcases hacc with h | h <;> rw [h]

/-- Witness for C6 at a concrete 402 with an empty `accepts`. -/
theorem request_no_options_protocol_error_witness :
    (resp402 (BodyVal.details (some []) (some 1))).status = 402 ∧
    (getAccepts (resp402 (BodyVal.details (some []) (some 1))).body = none ∨
      getAccepts (resp402 (BodyVal.details (some []) (some 1))).body = some []) ∧
    request sampleEnv url0 sampleOpts (resp402 (BodyVal.details (some []) (some 1))) respOk =
      (.error .protocolError, { signedWith := none, payload := none, secondSent := none }) :=
  ⟨rfl, Or.inr rfl,
   request_no_options_protocol_error sampleEnv url0 sampleOpts _ respOk rfl (Or.inr rfl)⟩

/-- C5: whenever the full payment path runs (402, usable first option,
signing and encoding succeed) and the retried request does not come back
with a success status, `request` fails with the settlement error carrying
the observed second status and parsed body, and the rendered error message
contains both the decimal status and the serialized body. -/
theorem request_settlement_error {ρ : Type} (env : Env) (url : String)
    (opts : ReqOptions ρ) (resp1 resp2 : Resp) (opt : Accept) (tl : List Accept)
    (amt : Nat) (sf : Eip712Domain → TypedMessage → JStr)
    (h402 : resp1.status = 402)
    (hacc : getAccepts resp1.body = some (opt :: tl))
    (hamt : parseBigInt opt.maxAmountRequired = some amt)
    (hsig : ∀ d m, env.sign d m = .ok (sf d m))
    (henc : env.hasBuffer = true ∨ env.hasBtoa = true)
    (hfail : ¬(200 ≤ resp2.status ∧ resp2.status < 300)) :
    (request env url opts resp1 resp2).1 =
      .error (.settlementError resp2.status resp2.body) ∧
    List.IsInfix (natToDecimal resp2.status)
      (errMessage (.settlementError resp2.status resp2.body)) ∧
    List.IsInfix (stringifyBody resp2.body)
      (errMessage (.settlementError resp2.status resp2.body)) := by
  refine ⟨?_, ?_, ?_⟩
  · rw [request_402 env url opts resp1 resp2 opt tl amt h402 hacc hamt]
    unfold requestAfterParse createPayment
    dsimp only
    rw [hsig]
    dsimp only
    unfold encodePaymentPayload
    have h200 : resp2.status ≠ 200 := by omega
    rcases henc with hb | hb
    · rw [hb, if_pos (rfl : (true : Bool) = true)]
      dsimp only
      rw [if_pos h200]
    · rw [hb]
      cases hbuf : env.hasBuffer
      · rw [if_neg (show ¬((false : Bool) = true) by simp),
          if_pos (rfl : (true : Bool) = true)]
        dsimp only
        rw [if_pos h200]
      · rw [if_pos (rfl : (true : Bool) = true)]
        dsimp only
        rw [if_pos h200]
  · exact ⟨litBytes "Payment accepted but request failed: ",
      litBytes ". " ++ stringifyBody resp2.body, by simp [errMessage, List.append_assoc]⟩
  · exact ⟨litBytes "Payment accepted but request failed: " ++ natToDecimal resp2.status ++
      litBytes ". ", [], by simp [errMessage, List.append_assoc]⟩

/-- A payload actually produced by `createPayment` on the sample inputs. -/
def samplePaymentPayload : ExactEvmPaymentPayload :=
  ((createPayment sampleEnv samplePayParams).1).toOption.getD dummyPayload

/-- C2: every authorization produced by `createPayment` has
`validAfter = Math.floor(Date.now() / 1000)` and
`validBefore = validAfter + 3600` (as decimal strings), so the window is
always exactly 3600 seconds. -/
theorem createPayment_validity_window (env : Env) (ps : PayParams)
    (pl : ExactEvmPaymentPayload) (h : (createPayment env ps).1 = .ok pl) :
    pl.payload.authorization.validAfter = natToDecimal (env.nowMs / 1000) ∧
    pl.payload.authorization.validBefore = natToDecimal (env.nowMs / 1000 + 3600) ∧
    parseBigInt pl.payload.authorization.validAfter = some (env.nowMs / 1000) ∧
    parseBigInt pl.payload.authorization.validBefore = some (env.nowMs / 1000 + 3600) ∧
    (env.nowMs / 1000 + 3600) - env.nowMs / 1000 = 3600 := by
  unfold createPayment at h
  dsimp only at h
  cases hs : env.sign (cpDomain env ps) (cpMessage env ps) <;> rw [hs] at h
  · simp at h
  · simp only [Except.ok.injEq] at h
    subst h
    refine ⟨rfl, rfl, ?_, ?_, by omega⟩
    · exact parseBigInt_natToDecimal _
    · exact parseBigInt_natToDecimal _

/-- Witness for C2 on the sample environment. -/
theorem createPayment_validity_window_witness :
    (createPayment sampleEnv samplePayParams).1 = .ok samplePaymentPayload ∧
    (samplePaymentPayload.payload.authorization.validAfter =
        natToDecimal (sampleEnv.nowMs / 1000) ∧
      samplePaymentPayload.payload.authorization.validBefore =
        natToDecimal (sampleEnv.nowMs / 1000 + 3600) ∧
      parseBigInt samplePaymentPayload.payload.authorization.validAfter =
        some (sampleEnv.nowMs / 1000) ∧
      parseBigInt samplePaymentPayload.payload.authorization.validBefore =
        some (sampleEnv.nowMs / 1000 + 3600) ∧
      (sampleEnv.nowMs / 1000 + 3600) - sampleEnv.nowMs / 1000 = 3600) :=
  ⟨rfl, createPayment_validity_window sampleEnv samplePayParams samplePaymentPayload rfl⟩

/-- C3 (structure only; the randomness source is `Math.random`, not a
CSPRNG): every nonce produced by `createPayment` is `"0x"` followed by the
hex of 32 bytes: the 8-byte big-endian unix-seconds timestamp, then the 24
bytes drawn from the random source. -/
theorem createPayment_nonce_layout (env : Env) (ps : PayParams)
    (pl : ExactEvmPaymentPayload) (h : (createPayment env ps).1 = .ok pl)
    (hlen : env.random.length = 24)
    (hrand : ∀ b ∈ env.random, b < 256)
    (hts : env.nowMs2 / 1000 < 2 ^ 64) :
    pl.payload.authorization.nonce =
      litBytes "0x" ++ hexOfBytes (beBytes 8 (env.nowMs2 / 1000) ++ env.random) ∧
    hexToBytes (List.drop 2 pl.payload.authorization.nonce) =
      some (beBytes 8 (env.nowMs2 / 1000) ++ env.random) ∧
    (beBytes 8 (env.nowMs2 / 1000) ++ env.random).length = 32 := by
  have hbytes : ∀ b ∈ beBytes 8 (env.nowMs2 / 1000) ++ env.random, b < 256 := by
    rw [List.forall_mem_append]
    exact ⟨beBytes_lt 8 _, hrand⟩
  have hnonce : pl.payload.authorization.nonce =
      litBytes "0x" ++ hexOfBytes (beBytes 8 (env.nowMs2 / 1000) ++ env.random) := by
    unfold createPayment at h
    dsimp only at h
    cases hs : env.sign (cpDomain env ps) (cpMessage env ps) <;> rw [hs] at h
    · simp at h
    · simp only [Except.ok.injEq] at h
      subst h
      show cpNonce env = _
      unfold cpNonce
      rw [padStart_natToHex_eq_beBytes _ hts, hexOfBytes_append, List.append_assoc]
  refine ⟨hnonce, ?_, ?_⟩
  · rw [hnonce, show litBytes "0x" = [48, 120] from rfl]
    rw [show List.drop 2 ([48, 120] ++ hexOfBytes (beBytes 8 (env.nowMs2 / 1000) ++ env.random)) =
      hexOfBytes (beBytes 8 (env.nowMs2 / 1000) ++ env.random) from rfl]
    exact hexToBytes_hexOfBytes _ hbytes
  · rw [List.length_append, beBytes_length, hlen]

/-- Witness for C3's structural theorem on the sample environment. -/
theorem createPayment_nonce_layout_witness :
    ((createPayment sampleEnv samplePayParams).1 = .ok samplePaymentPayload ∧
      sampleEnv.random.length = 24 ∧ (∀ b ∈ sampleEnv.random, b < 256) ∧
      sampleEnv.nowMs2 / 1000 < 2 ^ 64) ∧
    (samplePaymentPayload.payload.authorization.nonce =
        litBytes "0x" ++
          hexOfBytes (beBytes 8 (sampleEnv.nowMs2 / 1000) ++ sampleEnv.random) ∧
      hexToBytes (List.drop 2 samplePaymentPayload.payload.authorization.nonce) =
        some (beBytes 8 (sampleEnv.nowMs2 / 1000) ++ sampleEnv.random) ∧
      (beBytes 8 (sampleEnv.nowMs2 / 1000) ++ sampleEnv.random).length = 32) :=
  ⟨⟨rfl, by decide, by decide, by decide⟩,
   createPayment_nonce_layout sampleEnv samplePayParams samplePaymentPayload rfl
     (by decide) (by decide) (by decide)⟩

/-- The trace of a full sample 402 run. -/
def sampleTrace : Tr Nat :=
  (request sampleEnv url0 sampleOpts (resp402 sampleBody402) respOk).2

/-- The payload that run built. -/
def sampleTracePl : ExactEvmPaymentPayload := sampleTrace.payload.getD dummyPayload

/-- A placeholder domain/message pair. -/
def dummyDomainMessage : Eip712Domain × TypedMessage :=
  (⟨[], [], 0, []⟩, ⟨[], [], 0, 0, 0, []⟩)

/-- The domain/message that run signed. -/
def sampleTraceDm : Eip712Domain × TypedMessage :=
  sampleTrace.signedWith.getD dummyDomainMessage

/-- C1 (amended): on a 402 whose first accepted option has a parseable
`maxAmountRequired`, whenever `request` built a payload and signed, that
payload's authorization has `value` equal to the canonical decimal
rendering of the converted amount (numerically equal to the option's
`maxAmountRequired`; string-equal exactly when the server sent a canonical
decimal string), `to` equal to the option's `payTo`, and the signing domain
used the option's `asset` as its verifying contract. -/
theorem request_uses_first_option {ρ : Type} (env : Env) (url : String)
    (opts : ReqOptions ρ) (resp1 resp2 : Resp) (opt : Accept) (tl : List Accept)
    (amt : Nat) (pl : ExactEvmPaymentPayload) (dm : Eip712Domain × TypedMessage)
    (h402 : resp1.status = 402)
    (hacc : getAccepts resp1.body = some (opt :: tl))
    (hamt : parseBigInt opt.maxAmountRequired = some amt)
    (hpl : (request env url opts resp1 resp2).2.payload = some pl)
    (hdm : (request env url opts resp1 resp2).2.signedWith = some dm) :
    pl.payload.authorization.value = natToDecimal amt ∧
    parseBigInt pl.payload.authorization.value = parseBigInt opt.maxAmountRequired ∧
    pl.payload.authorization.«to» = opt.payTo ∧
    dm.2.value = amt ∧ dm.2.«to» = opt.payTo ∧
    dm.1.verifyingContract = opt.asset := by
  have key : ∀ (sig : JStr),
      pl = cpPayload env (optParams url opt amt) sig →
      dm = (cpDomain env (optParams url opt amt), cpMessage env (optParams url opt amt)) →
      pl.payload.authorization.value = natToDecimal amt ∧
      parseBigInt pl.payload.authorization.value = parseBigInt opt.maxAmountRequired ∧
      pl.payload.authorization.«to» = opt.payTo ∧
      dm.2.value = amt ∧ dm.2.«to» = opt.payTo ∧
      dm.1.verifyingContract = opt.asset := by
    intro sig h1 h2
    subst h1
    subst h2
    refine ⟨rfl, ?_, rfl, rfl, rfl, rfl⟩
    show parseBigInt (natToDecimal amt) = _
    rw [parseBigInt_natToDecimal, hamt]
  rw [request_402 env url opts resp1 resp2 opt tl amt h402 hacc hamt] at hpl hdm
  unfold requestAfterParse createPayment at hpl hdm
  dsimp only at hpl hdm
  cases hs : env.sign (cpDomain env (optParams url opt amt))
      (cpMessage env (optParams url opt amt)) with
  | error m =>
    rw [hs] at hpl
    dsimp only at hpl
    exact absurd hpl (by simp)
  | ok sig =>
    rw [hs] at hpl hdm
    dsimp only at hpl hdm
    cases he : encodePaymentPayload env.hasBuffer env.hasBtoa
        (cpPayload env (optParams url opt amt) sig) with
    | error e =>
      rw [he] at hpl hdm
      dsimp only at hpl hdm
      exact key sig (Option.some.inj hpl).symm (Option.some.inj hdm).symm
    | ok b64 =>
      rw [he] at hpl hdm
      dsimp only at hpl hdm
      by_cases h200 : resp2.status ≠ 200
      · rw [if_pos h200] at hpl hdm
        exact key sig (Option.some.inj hpl).symm (Option.some.inj hdm).symm
      · rw [if_neg h200] at hpl hdm
        exact key sig (Option.some.inj hpl).symm (Option.some.inj hdm).symm

/-- Witness for C1's amended theorem on the sample run. -/
theorem request_uses_first_option_witness :
    ((resp402 sampleBody402).status = 402 ∧
      getAccepts (resp402 sampleBody402).body = some [sampleAccept] ∧
      parseBigInt sampleAccept.maxAmountRequired = some 10000 ∧
      sampleTrace.payload = some sampleTracePl ∧
      sampleTrace.signedWith = some sampleTraceDm) ∧
    (sampleTracePl.payload.authorization.value = natToDecimal 10000 ∧
      parseBigInt sampleTracePl.payload.authorization.value =
        parseBigInt sampleAccept.maxAmountRequired ∧
      sampleTracePl.payload.authorization.«to» = sampleAccept.payTo ∧
      sampleTraceDm.2.value = 10000 ∧ sampleTraceDm.2.«to» = sampleAccept.payTo ∧
      sampleTraceDm.1.verifyingContract = sampleAccept.asset) :=
  ⟨⟨rfl, rfl, by decide, rfl, rfl⟩,
   request_uses_first_option sampleEnv url0 sampleOpts (resp402 sampleBody402) respOk
     sampleAccept [] 10000 sampleTracePl sampleTraceDm rfl rfl (by decide) rfl rfl⟩

/-- An option whose advertised amount is not in canonical decimal form. -/
def amount007Accept : Accept :=
  { sampleAccept with maxAmountRequired := litBytes "007" }

/-- C1 counterexample: with `maxAmountRequired = "007"` the produced
authorization's `value` is `"7"`, which is not equal to the option's
`maxAmountRequired` string. -/
theorem request_value_literal_counterexample :
    ((request sampleEnv url0 sampleOpts
        (resp402 (.details (some [amount007Accept]) (some 1))) respOk).2.payload).map
      (fun pl => pl.payload.authorization.value) = some (litBytes "7") ∧
    amount007Accept.maxAmountRequired ≠ litBytes "7" := by
  exact ⟨by decide, by decide⟩

/-- C4 (amended): on the 402 payment path, a signer exception is converted
into the single `PaymentError` carrying its cause (message
`"Failed to create payment: <cause>"`), with no payload kept and no second
request sent; a serialization failure (no base64 encoder in the
environment) also sends nothing, but surfaces as the encoder error, not as
a `PaymentError`; domain resolution cannot raise at all, because both
contract reads carry fallbacks. -/
theorem request_payment_failure_policy {ρ : Type} (env : Env) (url : String)
    (opts : ReqOptions ρ) (resp1 resp2 : Resp) (opt : Accept) (tl : List Accept)
    (amt : Nat)
    (h402 : resp1.status = 402)
    (hacc : getAccepts resp1.body = some (opt :: tl))
    (hamt : parseBigInt opt.maxAmountRequired = some amt) :
    (∀ msg : JStr, env.sign = (fun _ _ => .error msg) →
      (request env url opts resp1 resp2).1 = .error (.paymentError msg) ∧
      errMessage (.paymentError msg) = litBytes "Failed to create payment: " ++ msg ∧
      (request env url opts resp1 resp2).2.payload = none ∧
      (request env url opts resp1 resp2).2.secondSent = none) ∧
    (∀ sf : Eip712Domain → TypedMessage → JStr,
      (∀ d m, env.sign d m = .ok (sf d m)) →
      env.hasBuffer = false → env.hasBtoa = false →
      (request env url opts resp1 resp2).1 = .error .noBase64Encoder ∧
      (request env url opts resp1 resp2).2.secondSent = none) := by
  constructor
  · intro msg hmsg
    rw [request_402 env url opts resp1 resp2 opt tl amt h402 hacc hamt]
    unfold requestAfterParse createPayment
    dsimp only
    rw [hmsg]
    dsimp only
    exact ⟨rfl, rfl, rfl, rfl⟩
  · intro sf hsf hbuf hbtoa
    rw [request_402 env url opts resp1 resp2 opt tl amt h402 hacc hamt]
    unfold requestAfterParse createPayment
    dsimp only
    rw [hsf]
    dsimp only
    unfold encodePaymentPayload
    rw [hbuf, hbtoa]
    rw [if_neg (show ¬((false : Bool) = true) by simp),
      if_neg (show ¬((false : Bool) = true) by simp)]
    exact ⟨rfl, rfl⟩

/-- An environment whose signer always raises. -/
def failSignEnv : Env :=
  { sampleEnv with sign := fun _ _ => .error (litBytes "key rejected") }

/-- Witness for C4's amended theorem: both failure shapes at concrete
inputs. -/
theorem request_payment_failure_policy_witness :
    ((resp402 sampleBody402).status = 402 ∧
      getAccepts (resp402 sampleBody402).body = some [sampleAccept] ∧
      parseBigInt sampleAccept.maxAmountRequired = some 10000 ∧
      failSignEnv.sign = (fun _ _ => .error (litBytes "key rejected"))) ∧
    ((request failSignEnv url0 sampleOpts (resp402 sampleBody402) respOk).1 =
        .error (.paymentError (litBytes "key rejected")) ∧
      errMessage (.paymentError (litBytes "key rejected")) =
        litBytes "Failed to create payment: " ++ litBytes "key rejected" ∧
      (request failSignEnv url0 sampleOpts (resp402 sampleBody402) respOk).2.payload = none ∧
      (request failSignEnv url0 sampleOpts (resp402 sampleBody402) respOk).2.secondSent =
        none) :=
  ⟨⟨rfl, rfl, by decide, rfl⟩,
   (request_payment_failure_policy failSignEnv url0 sampleOpts (resp402 sampleBody402)
      respOk sampleAccept [] 10000 rfl rfl (by decide)).1
     (litBytes "key rejected") rfl⟩

/-- An environment in which neither `Buffer` nor `btoa` exists. -/
def noEncoderEnv : Env := { sampleEnv with hasBuffer := false, hasBtoa := false }

/-- Is a request outcome the `PaymentError` shape? -/
def isPaymentErrorResult : Except Err RequestResult → Bool
  | .error (.paymentError _) => true
  | _ => false

/-- C4 counterexample: with no base64 encoder available, serialization of
the payment raises, and `request` surfaces that exception as the encoder
error — not as a `PaymentError` — refuting the claim that every exception
during serialization converts to a `PaymentError`. -/
theorem request_serialization_error_counterexample :
    (request noEncoderEnv url0 sampleOpts (resp402 sampleBody402) respOk).1 =
      .error .noBase64Encoder ∧
    isPaymentErrorResult
      ((request noEncoderEnv url0 sampleOpts (resp402 sampleBody402) respOk).1) = false :=
  ⟨rfl, rfl⟩

/-- C8 (amended): whenever `request` sends a retried request, it goes to
the same url with the caller's other options (`rest`) unchanged; its
headers agree with the caller's headers on every name except `X-PAYMENT`,
which is set to the encoded payment payload — added when the caller had
none, and replacing any caller-supplied `X-PAYMENT` value. -/
theorem request_retry_frame {ρ : Type} (env : Env) (url : String)
    (opts : ReqOptions ρ) (resp1 resp2 : Resp) (sent : SentReq ρ)
    (hsent : (request env url opts resp1 resp2).2.secondSent = some sent) :
    sent.url = url ∧ sent.rest = opts.rest ∧
    (∀ k, k ≠ "X-PAYMENT" → sent.headers k = opts.headers k) ∧
    (∃ pl b64, (request env url opts resp1 resp2).2.payload = some pl ∧
      encodePaymentPayload env.hasBuffer env.hasBtoa pl = .ok b64 ∧
      sent.headers "X-PAYMENT" = some b64) := by
  unfold request at hsent ⊢
  by_cases h402 : resp1.status ≠ 402
  · rw [if_pos h402] at hsent
    exact absurd hsent (by simp)
  · rw [if_neg h402] at hsent ⊢
    cases hga : getAccepts resp1.body with
    | none =>
      rw [hga] at hsent
      exact absurd hsent (by simp)
    | some l =>
      rw [hga] at hsent
      cases l with
      | nil => exact absurd hsent (by simp)
      | cons opt tl =>
        dsimp only at hsent ⊢
        cases hpb : parseBigInt opt.maxAmountRequired with
        | none =>
          rw [hpb] at hsent
          exact absurd hsent (by simp)
        | some amt =>
          rw [hpb] at hsent
          dsimp only at hsent ⊢
          unfold requestAfterParse createPayment at hsent ⊢
          dsimp only at hsent ⊢
          cases hs : env.sign (cpDomain env (optParams url opt amt))
              (cpMessage env (optParams url opt amt)) with
          | error m =>
            rw [hs] at hsent
            exact absurd hsent (by simp)
          | ok sig =>
            rw [hs] at hsent
            dsimp only at hsent ⊢
            cases he : encodePaymentPayload env.hasBuffer env.hasBtoa
                (cpPayload env (optParams url opt amt) sig) with
            | error e =>
              rw [he] at hsent
              exact absurd hsent (by simp)
            | ok b64 =>
              rw [he] at hsent
              dsimp only at hsent ⊢
              by_cases h200 : resp2.status ≠ 200
              · rw [if_pos h200] at hsent ⊢
                dsimp only at hsent ⊢
                have hsq := (Option.some.inj hsent).symm
                subst hsq
                refine ⟨rfl, rfl, ?_, ?_⟩
                · intro k hk
                  dsimp only
                  rw [if_neg hk]
                · exact ⟨cpPayload env (optParams url opt amt) sig, b64, rfl, he, by
                    dsimp only
                    rw [if_pos rfl]⟩
              · rw [if_neg h200] at hsent ⊢
                dsimp only at hsent ⊢
                have hsq := (Option.some.inj hsent).symm
                subst hsq
                refine ⟨rfl, rfl, ?_, ?_⟩
                · intro k hk
                  dsimp only
                  rw [if_neg hk]
                · exact ⟨cpPayload env (optParams url opt amt) sig, b64, rfl, he, by
                    dsimp only
                    rw [if_pos rfl]⟩

/-- The retried request of the sample run. -/
def sampleSentReq : SentReq Nat :=
  ((request sampleEnv url0 sampleOpts (resp402 sampleBody402) respOk).2.secondSent).getD
    ⟨"", noHeaders, 0⟩

/-- Witness for C8's amended theorem on the sample run. -/
theorem request_retry_frame_witness :
    (request sampleEnv url0 sampleOpts (resp402 sampleBody402) respOk).2.secondSent =
      some sampleSentReq ∧
    (sampleSentReq.url = url0 ∧ sampleSentReq.rest = sampleOpts.rest ∧
      (∀ k, k ≠ "X-PAYMENT" → sampleSentReq.headers k = sampleOpts.headers k) ∧
      (∃ pl b64,
        (request sampleEnv url0 sampleOpts (resp402 sampleBody402) respOk).2.payload =
          some pl ∧
        encodePaymentPayload sampleEnv.hasBuffer sampleEnv.hasBtoa pl = .ok b64 ∧
        sampleSentReq.headers "X-PAYMENT" = some b64)) :=
  ⟨rfl,
   request_retry_frame sampleEnv url0 sampleOpts (resp402 sampleBody402) respOk
     sampleSentReq rfl⟩

/-- Caller options that already carry an `X-PAYMENT` header. -/
def xpOpts : ReqOptions Nat :=
  { headers := fun k => if k = "X-PAYMENT" then some "caller-supplied" else none
    rest := 7 }

/-- C8 counterexample: a caller-supplied `X-PAYMENT` header is not
preserved with its original value on the retried request — the client
overwrites it with the encoded payload. -/
theorem request_header_overwrite_counterexample :
    xpOpts.headers "X-PAYMENT" = some "caller-supplied" ∧
    ((request sampleEnv url0 xpOpts (resp402 sampleBody402) respOk).2.secondSent).map
        (fun s => s.headers "X-PAYMENT") ≠ some (some "caller-supplied") ∧
    ((request sampleEnv url0 xpOpts (resp402 sampleBody402) respOk).2.secondSent).isSome =
      true :=
  ⟨rfl, by decide, rfl⟩

/-- C9: for every well-formed payload, encoding to the transport header
(base64 of the JSON serialization) in any environment that has an encoder,
then decoding that header, yields the payload back field-for-field. -/
theorem encodePaymentPayload_roundtrip (p : ExactEvmPaymentPayload)
    (hasBuffer hasBtoa : Bool) (henc : hasBuffer = true ∨ hasBtoa = true)
    (hwf : WFPayload p) :
    ∃ s, encodePaymentPayload hasBuffer hasBtoa p = .ok s ∧
      decodePaymentHeader s = some p := by
  have hdec : decodePaymentHeader (String.mk (b64encodeBytes (serializePayload p))) =
      some p :=
    (decodeHeader_encodeBytes (serializePayload p) (serializePayload_lt p hwf)).trans
      (parsePayload_serializePayload p)
  rcases henc with hb | hb
  · subst hb
    exact ⟨_, rfl, hdec⟩
  · subst hb
    cases hbuf : hasBuffer
    · exact ⟨_, rfl, hdec⟩
    · exact ⟨_, rfl, hdec⟩

/-- Witness for C9 on the sample-run payload. -/
theorem encodePaymentPayload_roundtrip_witness :
    ((true : Bool) = true ∨ (false : Bool) = true) ∧ WFPayload samplePaymentPayload ∧
    (∃ s, encodePaymentPayload true false samplePaymentPayload = .ok s ∧
      decodePaymentHeader s = some samplePaymentPayload) :=
  ⟨Or.inl rfl, by decide,
   encodePaymentPayload_roundtrip samplePaymentPayload true false (Or.inl rfl) (by decide)⟩

/-- C10 (amended): on a 402 offering a non-empty accepts list, the payload
the client builds always has `x402Version = 1` — the body's own
`x402Version` is never read, so the whole outcome is unchanged under any
other value of it — and its scheme is the selected option's scheme when
that is a non-empty string, and the literal `"exact"` when the scheme is
absent or the empty string. -/
theorem request_version_and_scheme {ρ : Type} (env : Env) (url : String)
    (opts : ReqOptions ρ) (hm : HMap) (accepts : List Accept) (v v' : Option Nat)
    (resp2 : Resp) (pl : ExactEvmPaymentPayload)
    (hpl : (request env url opts ⟨402, hm, .details (some accepts) v⟩ resp2).2.payload =
      some pl) :
    (request env url opts ⟨402, hm, .details (some accepts) v⟩ resp2 =
      request env url opts ⟨402, hm, .details (some accepts) v'⟩ resp2) ∧
    pl.x402Version = 1 ∧
    (∀ opt tl, accepts = opt :: tl →
      ((opt.scheme = none ∨ opt.scheme = some []) → pl.scheme = exactScheme) ∧
      (∀ s, opt.scheme = some s → s ≠ [] → pl.scheme = s)) := by
  refine ⟨rfl, ?_⟩
  unfold request at hpl
  rw [if_neg (by simp)] at hpl
  cases accepts with
  | nil => exact absurd hpl (by simp [getAccepts])
  | cons opt tl =>
    rw [show getAccepts (Resp.mk 402 hm (.details (some (opt :: tl)) v)).body =
      some (opt :: tl) from rfl] at hpl
    dsimp only at hpl
    cases hpb : parseBigInt opt.maxAmountRequired with
    | none =>
      rw [hpb] at hpl
      exact absurd hpl (by simp)
    | some amt =>
      rw [hpb] at hpl
      dsimp only at hpl
      unfold requestAfterParse createPayment at hpl
      dsimp only at hpl
      have key : pl.scheme = jsOrOpt opt.scheme exactScheme ∧ pl.x402Version = 1 := by
        cases hs : env.sign (cpDomain env (optParams url opt amt))
            (cpMessage env (optParams url opt amt)) with
        | error m =>
          rw [hs] at hpl
          exact absurd hpl (by simp)
        | ok sig =>
          rw [hs] at hpl
          dsimp only at hpl
          cases he : encodePaymentPayload env.hasBuffer env.hasBtoa
              (cpPayload env (optParams url opt amt) sig) with
          | error e =>
            rw [he] at hpl
            dsimp only at hpl
            rw [← Option.some.inj hpl]
            exact ⟨rfl, rfl⟩
          | ok b64 =>
            rw [he] at hpl
            dsimp only at hpl
            by_cases h200 : resp2.status ≠ 200
            · rw [if_pos h200] at hpl
              rw [← Option.some.inj hpl]
              exact ⟨rfl, rfl⟩
            · rw [if_neg h200] at hpl
              rw [← Option.some.inj hpl]
              exact ⟨rfl, rfl⟩
      refine ⟨key.2, ?_⟩
      intro opt' tl' heq
      obtain ⟨rfl, rfl⟩ : opt' = opt ∧ tl' = tl := by
        injection heq with h1 h2
        exact ⟨h1.symm, h2.symm⟩
      constructor
      · intro hsch
        rw [key.1]
        rcases hsch with h | h <;> rw [h] <;> rfl
      · intro s hs hne
        rw [key.1, hs]
        simp only [jsOrOpt, jsOrBytes]
        rw [if_neg hne]

/-- An option advertising an empty-string scheme. -/
def emptySchemeAccept : Accept := { sampleAccept with scheme := some ([] : JStr) }

/-- C10 counterexample: with a present-but-empty scheme string the payload's
scheme is `"exact"`, not the option's (present) scheme. -/
theorem request_scheme_empty_counterexample :
    emptySchemeAccept.scheme = some [] ∧
    ((request sampleEnv url0 sampleOpts
        (resp402 (.details (some [emptySchemeAccept]) (some 1))) respOk).2.payload).map
      (fun pl => pl.scheme) = some exactScheme ∧
    exactScheme ≠ ([] : JStr) :=
  ⟨rfl, by decide, by decide⟩

/-- Witness for C10's amended theorem on the sample run. -/
theorem request_version_and_scheme_witness :
    (request sampleEnv url0 sampleOpts
        ⟨402, noHeaders, .details (some [sampleAccept]) (some 1)⟩ respOk).2.payload =
      some sampleTracePl ∧
    ((request sampleEnv url0 sampleOpts
        ⟨402, noHeaders, .details (some [sampleAccept]) (some 1)⟩ respOk =
      request sampleEnv url0 sampleOpts
        ⟨402, noHeaders, .details (some [sampleAccept]) (some 7)⟩ respOk) ∧
    sampleTracePl.x402Version = 1 ∧
    (∀ opt tl, [sampleAccept] = opt :: tl →
      ((opt.scheme = none ∨ opt.scheme = some []) → sampleTracePl.scheme = exactScheme) ∧
      (∀ s, opt.scheme = some s → s ≠ [] → sampleTracePl.scheme = s))) :=
  ⟨rfl,
   request_version_and_scheme sampleEnv url0 sampleOpts noHeaders [sampleAccept]
     (some 1) (some 7) respOk sampleTracePl rfl⟩

/-- Witness for C5 at a concrete 404 second response. -/
theorem request_settlement_error_witness :
    ((resp402 sampleBody402).status = 402 ∧
      getAccepts (resp402 sampleBody402).body = some [sampleAccept] ∧
      parseBigInt sampleAccept.maxAmountRequired = some 10000 ∧
      ¬(200 ≤ (404 : Nat) ∧ (404 : Nat) < 300)) ∧
    ((request sampleEnv url0 sampleOpts (resp402 sampleBody402)
        { status := 404, headers := noHeaders, body := .raw (litBytes "nope") }).1 =
      .error (.settlementError 404 (.raw (litBytes "nope"))) ∧
    List.IsInfix (natToDecimal 404)
      (errMessage (.settlementError 404 (.raw (litBytes "nope")))) ∧
    List.IsInfix (stringifyBody (.raw (litBytes "nope")))
      (errMessage (.settlementError 404 (.raw (litBytes "nope"))))) :=
  ⟨⟨rfl, rfl, by decide, by decide⟩,
   request_settlement_error sampleEnv url0 sampleOpts (resp402 sampleBody402)
     { status := 404, headers := noHeaders, body := .raw (litBytes "nope") }
     sampleAccept [] 10000 (fun _ _ => litBytes "0xdeadbeefcafe")
     rfl rfl (by decide) (fun _ _ => rfl) (Or.inl rfl) (by decide)⟩

end X402
